import Mathlib

/-!
Verification development for the mcop MCP monitor.

The development shallowly embeds the Go sources of the repository:

* `src/mcp/client.go` — the protocol client (`Connect`, `Call`,
  `parseCommand`, `generateID`, the read loop);
* `src/model/app_state.go` — the registry operations (`ToggleServer`,
  `DisconnectServer`) over the application state;
* the Qwen example MCP server (`handleCallTool`, `createErrorResponse`,
  `createSuccessResponse`, the mock tool handlers).

Modelling conventions:

* Go strings are modelled as Lean `String`s (sequences of characters).
  The Go code indexes and slices strings by byte; every string the
  claims exercise is ASCII, where the two views coincide.
* A Go runtime panic (for example an out-of-range string slice) is
  modelled by an explicit `panic` outcome, and operations that can
  panic return `Option`/an outcome type.
* Operating-system effects (pipe creation, process spawn) are modelled
  by a `SpawnOracle` of booleans saying which of those steps would
  succeed; the embedded `connect` consults the oracle exactly where the
  Go code consults the corresponding system call result.  Wrapped OS
  error texts (Go `%w`) are abstracted to the fixed prefix of the
  message.
* `time.Now()` is a parameter (`now : Nat`); `time.Time` and
  `time.Duration` values are modelled as naturals.
* JSON values are modelled by the inductive `JVal`; Go `float64`
  numbers are modelled as exact rationals (no claim depends on IEEE
  rounding), and `json.Marshal` is abstracted: responses are compared
  as structured values, not as byte strings.
-/

namespace Mcop

/-- The single-quote character, written via its code point to keep the
source free of quote literals. -/
def squote : Char := Char.ofNat 39

/-- The double-quote character, written via its code point. -/
def dquote : Char := Char.ofNat 34

/-! ## Data model (`src/types`, `unnamed/part_003`) -/

/-- Embedding of `types.MCPServer`.  `StartTime`/`ResponseTime` are
modelled as naturals (abstract instants/durations). -/
structure MCPServer where
  id : String
  name : String
  url : String
  status : String
  startTime : Nat
  responseTime : Nat
  activeConnections : Int
  description : String
  tools : List String
deriving DecidableEq, Repr

/-- Embedding of `types.Connection`. -/
structure Connection where
  id : String
  serverID : String
  connected : Nat
  status : String
  lastUsed : Nat
deriving DecidableEq, Repr

/-! ## Protocol client (`src/mcp/client.go`) -/

/-- Embedding of the observable state of `mcp.MCPClient`: the server
descriptor and the `connected` flag.  The `cmd`/`stdin`/`stdout`/`ctx`
fields are operating-system handles, abstracted away (the embedded
operations consult the `SpawnOracle` where the Go code uses them). -/
structure MCPClient where
  server : MCPServer
  connected : Bool
deriving DecidableEq, Repr

/-- Embedding of `mcp.NewMCPClient`: a fresh client is not connected. -/
def NewMCPClient (server : MCPServer) : MCPClient :=
  { server := server, connected := false }

/-- Embedding of `mcp.MCPError`. -/
structure MCPError where
  code : Int
  message : String
deriving DecidableEq, Repr

/-- JSON values, for request parameters and response results.  Numbers
are exact rationals (Go `float64` abstracted; see the header note). -/
inductive JVal where
  | str (s : String)
  | num (q : Rat)
  | obj (fields : List (String × JVal))
  | arr (items : List JVal)

/-- Embedding of `mcp.MCPResponse` (`result` left structured rather
than marshalled). -/
structure MCPResponse where
  id : String
  result : Option JVal
  error : Option MCPError

/-- Which operating-system steps of `Connect` would succeed: creating
the stdin pipe, creating the stdout pipe, and starting the child
process. -/
structure SpawnOracle where
  stdinPipeOk : Bool
  stdoutPipeOk : Bool
  startOk : Bool
deriving DecidableEq, Repr

/-- The oracle on which every operating-system step succeeds. -/
def allOk : SpawnOracle :=
  { stdinPipeOk := true, stdoutPipeOk := true, startOk := true }

/-- Embedding of the loop body of `mcp.parseCommand`: `cur` is the Go
`current` accumulator, `inQ` the `inQuotes` flag and `qc` the
`quoteChar` variable (only read while `inQ` is set). -/
def parseCommandAux : List Char → String → Bool → Char → List String
  | [], cur, _, _ => if cur = "" then [] else [cur]
  | c :: cs, cur, inQ, qc =>
    if inQ = false ∧ (c = squote ∨ c = dquote) then
      parseCommandAux cs cur true c
    else if inQ = true ∧ c = qc then
      parseCommandAux cs cur false qc
    else if inQ = false ∧ c = ' ' then
      if cur = "" then parseCommandAux cs "" false qc
      else cur :: parseCommandAux cs "" false qc
    else
      parseCommandAux cs (cur.push c) inQ qc

/-- Embedding of `mcp.parseCommand` (`client.go:162-192`): splits a
command string into parts, tracking single/double quotes, with the
`quoteChar` variable initialised to the zero byte. -/
def parseCommand (command : String) : List String :=
  parseCommandAux command.data "" false (Char.ofNat 0)

/-- Outcome of `Connect`: success (the mutated client), an error
return, or a Go runtime panic. -/
inductive ConnectResult where
  | ok (c : MCPClient)
  | err (msg : String)
  | panic (msg : String)
deriving DecidableEq, Repr

/-- Embedding of `mcp.MCPClient.Connect` (`client.go:58-95`).  The Go
code slices `c.Server.URL[:7]` (a panic when the URL has fewer than 7
bytes) and compares that 7-byte slice with the 8-byte literal
`stdio://`; inside the branch it strips 8 bytes with `URL[8:]`.  The
pipe/start system calls are consulted through the oracle. -/
def connect (c : MCPClient) (o : SpawnOracle) : ConnectResult :=
  if c.server.url = "" then .err "server URL is empty"
  else if c.server.url.length < 7 then
    .panic "runtime error: slice bounds out of range"
  else if String.mk (c.server.url.data.take 7) = "stdio://" then
    if c.server.url.length < 8 then
      .panic "runtime error: slice bounds out of range"
    else
      let command := String.mk (c.server.url.data.drop 8)
      let parts := parseCommand command
      if parts = [] then .err ("invalid command: " ++ command)
      else if o.stdinPipeOk = false then .err "failed to create stdin pipe"
      else if o.stdoutPipeOk = false then .err "failed to create stdout pipe"
      else if o.startOk = false then .err "failed to start command"
      else .ok { c with connected := true }
  else
    .err ("unsupported protocol: " ++ String.mk (c.server.url.data.take 7))

/-- Embedding of `mcp.MCPClient.Call` (`client.go:129-159`).  The
request id produced by the time-based `generateID` is a parameter
(`reqId`), and the success of the `stdin.Write` system call is the
parameter `writeOk`; marshalling of the request never fails for the
values in play.  The Go method returns, without waiting for any
response, the placeholder `&MCPResponse{ID: request.ID}`. -/
def call (c : MCPClient) (method : String) (params : Option JVal)
    (reqId : String) (writeOk : Bool) : Except String MCPResponse :=
  if c.connected = false then .error "not connected to server"
  else
    let _request := (method, reqId, "1.0", params)
    if writeOk = false then .error "failed to send request"
    else .ok { id := reqId, result := none, error := none }

/-- Embedding of `mcp.MCPClient.readLoop` (`client.go:116-126`): while
the client is connected, every scanned line is only printed as
`Received: <line>`; no line is parsed, correlated with a pending
request, or delivered to a caller.  The returned list is what the loop
prints. -/
def readLoop (c : MCPClient) (lines : List String) : List String :=
  if c.connected then lines.map (fun l => "Received: " ++ l) else []

/-! ## Application state and registry operations (`src/model/app_state.go`) -/

/-- Lookup in the `MCPConnections` map (a Go `map[string]*MCPClient`,
modelled as an association list with unique keys; the stored clients
are the non-nil pointers the code inserts). -/
def mapGet (k : String) (m : List (String × MCPClient)) : Option MCPClient :=
  (m.find? (fun p => p.1 = k)).map Prod.snd

/-- Removal of a key, the effect of Go `delete(m, k)`. -/
def mapErase (k : String) (m : List (String × MCPClient)) :
    List (String × MCPClient) :=
  m.filter (fun p => ¬ p.1 = k)

/-- Insertion `m[k] = v` (any previous binding for `k` is replaced). -/
def mapInsert (k : String) (v : MCPClient) (m : List (String × MCPClient)) :
    List (String × MCPClient) :=
  mapErase k m ++ [(k, v)]

/-- Embedding of `model.AppState`. -/
structure AppState where
  servers : List MCPServer
  connections : List Connection
  mcpConnections : List (String × MCPClient)
  selectedIndex : Int
  view : String
  error : String
  isLoading : Bool
  refreshRate : Int
  autoRefresh : Bool
  initialServerURL : String
deriving DecidableEq, Repr

/-- Embedding of `AppModel.ToggleServer` (`app_state.go:338-372`).
`index` is the (non-negative) selected index, `now` the value of
`time.Now()` and `o` the oracle for the `Connect` attempt.  The result
is `none` exactly when the `Connect` call panics (which unwinds before
any field of the state has been mutated).  Mutation order follows the
Go code: the status branch first, then the trailing
`ActiveConnections` update — which is skipped on the early `return` of
the failed-connect path. -/
def toggleServer (st : AppState) (index : Nat) (now : Nat) (o : SpawnOracle) :
    Option AppState :=
  if h : index < st.servers.length then
    let server := st.servers.get ⟨index, h⟩
    if server.status = "running" then
      some { st with
        mcpConnections := mapErase server.id st.mcpConnections,
        servers := st.servers.set index
          { server with status := "stopped", activeConnections := 0 } }
    else if server.status = "stopped" then
      match connect (NewMCPClient server) o with
      | .panic _ => none
      | .err _ =>
        some { st with
          servers := st.servers.set index { server with status := "error" } }
      | .ok client =>
        some { st with
          mcpConnections := mapInsert server.id client st.mcpConnections,
          servers := st.servers.set index
            { server with status := "running", startTime := now,
                          activeConnections := 1 } }
    else
      some { st with
        servers := st.servers.set index { server with activeConnections := 0 } }
  else some st

/-- Embedding of `AppModel.DisconnectServer` (`app_state.go:374-389`):
only a `running` server is disconnected (client disconnected and
dropped from the map, `ActiveConnections` zeroed, status set to
`stopped`); in every other case the state is returned untouched. -/
def disconnectServer (st : AppState) (index : Nat) : AppState :=
  if h : index < st.servers.length then
    let server := st.servers.get ⟨index, h⟩
    if server.status = "running" then
      { st with
        mcpConnections := mapErase server.id st.mcpConnections,
        servers := st.servers.set index
          { server with activeConnections := 0, status := "stopped" } }
    else st
  else st

/-- One registry operation, as issued from the key handler: a toggle
(with its `time.Now()` value and spawn oracle) or a disconnect. -/
inductive RegOp where
  | toggle (index : Nat) (now : Nat) (o : SpawnOracle)
  | disconnect (index : Nat)
deriving DecidableEq, Repr

/-- Apply one registry operation; `none` means the operation panicked. -/
def applyOp (st : AppState) : RegOp → Option AppState
  | .toggle i now o => toggleServer st i now o
  | .disconnect i => some (disconnectServer st i)

/-- Run a sequence of registry operations, stopping at a panic. -/
def runOps : AppState → List RegOp → Option AppState
  | st, [] => some st
  | st, op :: ops =>
    match applyOp st op with
    | none => none
    | some st' => runOps st' ops

/-- The status/connection-map invariant of the spec: a `running` server
holds a connected client in the map under its ID, and a `stopped` or
`error` server holds no map entry. -/
def statusConnInvariant (st : AppState) : Prop :=
  ∀ s ∈ st.servers,
    (s.status = "running" →
      ∃ c, mapGet s.id st.mcpConnections = some c ∧ c.connected = true) ∧
    ((s.status = "stopped" ∨ s.status = "error") →
      mapGet s.id st.mcpConnections = none)

/-! ## Qwen example MCP server (`unnamed/part_000`) -/

/-- Lookup of a key in a JSON object's field list (Go map indexing;
keys produced by `json.Unmarshal` are unique). -/
def jLookup (fields : List (String × JVal)) (k : String) : Option JVal :=
  (fields.find? (fun p => p.1 = k)).map Prod.snd

/-- Go type assertion `m[k].(string)`. -/
def jGetString (fields : List (String × JVal)) (k : String) : Option String :=
  match jLookup fields k with
  | some (.str s) => some s
  | _ => none

/-- Go type assertion `m[k].(map[string]interface\x7b\x7d)`. -/
def jGetObj (fields : List (String × JVal)) (k : String) :
    Option (List (String × JVal)) :=
  match jLookup fields k with
  | some (.obj o) => some o
  | _ => none

/-- Go type assertion `m[k].(float64)`. -/
def jGetNum (fields : List (String × JVal)) (k : String) : Option Rat :=
  match jLookup fields k with
  | some (.num q) => some q
  | _ => none

/-- Go type assertion `m[k].([]interface\x7b\x7d)`. -/
def jGetArr (fields : List (String × JVal)) (k : String) :
    Option (List JVal) :=
  match jLookup fields k with
  | some (.arr a) => some a
  | _ => none

/-- Embedding of `createErrorResponse` (`part_000:249-260`): the object
`id / error.code = -32000 / error.message`, kept structured
(marshalling abstracted). -/
def createErrorResponse (id : String) (message : String) : JVal :=
  .obj [("id", .str id),
        ("error", .obj [("code", .num (-32000)),
                        ("message", .str message)])]

/-- Embedding of `createSuccessResponse` (`part_000:238-246`). -/
def createSuccessResponse (id : String) (result : JVal) : JVal :=
  .obj [("id", .str id), ("result", result)]

/-- Digits of a natural, zero-padded on the left to six places (used by
the model of Go `%f` formatting). -/
def pad6 (n : Nat) : String :=
  let s := toString n
  String.mk (List.replicate (6 - s.length) '0') ++ s

/-- Go `%f` formatting of a non-negative number: six decimal places.
IEEE rounding of the underlying `float64` is abstracted (the value is
an exact rational here). -/
def fmtFloatNN (q : Rat) : String :=
  let scaled := (q * 1000000).floor
  toString (scaled / 1000000) ++ "." ++ pad6 ((scaled % 1000000).toNat)

/-- Go `%f` formatting, with the sign split off. -/
def fmtFloat (q : Rat) : String :=
  if q < 0 then "-" ++ fmtFloatNN (-q) else fmtFloatNN q

/-- Embedding of `generateMockEmbedding` (`part_000:263-275`): a
16-entry vector; entry `i` is byte `i` of the text over 255 while `i`
is in range, and `i * 0.1` past the end (`float64` arithmetic as exact
rationals). -/
def generateMockEmbedding (text : String) : List Rat :=
  (List.range 16).map (fun i =>
    if i < text.length then
      ((text.data.getD (i % text.length) (Char.ofNat 0)).toNat : Rat) / 255
    else (i : Rat) * (1 / 10))

/-- Embedding of `handleQwenChatComplete` (`part_000:106-143`): default
model `qwen-max`, default messages a single user `Hello`, default
temperature `0.7`; the simulated result object. -/
def handleQwenChatComplete (id : String) (args : List (String × JVal)) : JVal :=
  let model := (jGetString args "model").getD "qwen-max"
  let _messages := (jGetArr args "messages").getD
    [.obj [("role", .str "user"), ("content", .str "Hello")]]
  let temperature := (jGetNum args "temperature").getD (7 / 10)
  let responseContent :=
    "This is a simulated response from model " ++ model ++
      " with temperature " ++ fmtFloat temperature
  createSuccessResponse id
    (.obj [("content", .str responseContent),
           ("model", .str model),
           ("usage", .obj [("prompt_tokens", .num 10),
                           ("completion_tokens", .num 20),
                           ("total_tokens", .num 30)])])

/-- Embedding of `handleQwenTextEmbedding` (`part_000:146-168`). -/
def handleQwenTextEmbedding (id : String) (args : List (String × JVal)) : JVal :=
  let text := (jGetString args "text").getD "Default text for embedding"
  let model := (jGetString args "model").getD "text-embedding-v1"
  createSuccessResponse id
    (.obj [("embedding", .arr ((generateMockEmbedding text).map JVal.num)),
           ("text", .str text),
           ("model", .str model)])

/-- Embedding of `handleCallTool` (`part_000:83-103`): the tool name is
taken from `params.name` (a failed string assertion yields the
`tool name is required` error), `params.arguments` defaults to the
empty object, and an unknown tool name yields the
`unknown tool: <name>` error response. -/
def handleCallTool (id : String) (params : List (String × JVal)) : JVal :=
  match jGetString params "name" with
  | none => createErrorResponse id "tool name is required"
  | some toolName =>
    let args := (jGetObj params "arguments").getD []
    if toolName = "qwen_chat_complete" then handleQwenChatComplete id args
    else if toolName = "qwen_text_embedding" then handleQwenTextEmbedding id args
    else createErrorResponse id ("unknown tool: " ++ toolName)

/-! ## Specification-side command splitting

The spec describes `parseCommand` as quote-aware whitespace splitting.
`specQuoteSplit` renders those words as a left fold over the
characters, parameterised by the separator class, so that the
whitespace reading (the claim) and the space-only reading (what the
code implements) can both be stated and compared with `parseCommand`. -/

/-- Modelled from the spec: accumulator of the quote-aware splitter —
the finished tokens, the token being built, and the pending quote
character (if inside a quoted run). -/
structure SplitAcc where
  toks : List String
  cur : String
  quote : Option Char
deriving DecidableEq, Repr

/-- Modelled from the spec: one character of quote-aware splitting.
Outside a quoted run, a quote character opens a run (and is consumed),
a separator finishes the current token (empty tokens are dropped), and
any other character is appended; inside a run, the matching quote
character closes it (and is consumed) and every other character is
appended. -/
def specQuoteStep (isSep : Char → Bool) (acc : SplitAcc) (c : Char) : SplitAcc :=
  match acc.quote with
  | some q =>
    if c = q then { acc with quote := none }
    else { acc with cur := acc.cur.push c }
  | none =>
    if c = squote ∨ c = dquote then { acc with quote := some c }
    else if isSep c then
      if acc.cur = "" then acc
      else { acc with toks := acc.toks ++ [acc.cur], cur := "" }
    else { acc with cur := acc.cur.push c }

/-- Modelled from the spec: flush the final token. -/
def splitFinish (acc : SplitAcc) : List String :=
  acc.toks ++ (if acc.cur = "" then [] else [acc.cur])

/-- Modelled from the spec: quote-aware splitting on a separator
class. -/
def specQuoteSplit (isSep : Char → Bool) (s : String) : List String :=
  splitFinish (s.data.foldl (specQuoteStep isSep) ⟨[], "", none⟩)

/-- The separator class of the claim's words: whitespace. -/
def isWhitespaceSep (c : Char) : Bool := c.isWhitespace

/-- The separator class the code implements: the space character. -/
def isSpaceSep (c : Char) : Bool := c = ' '

/-! ## Concrete fixtures -/

/-- A concrete server descriptor with the given URL. -/
def demoServer (u : String) : MCPServer :=
  { id := "s1", name := "demo", url := u, status := "stopped", startTime := 0,
    responseTime := 0, activeConnections := 0, description := "", tools := [] }

/-- A client already marked connected (for exercising `Call`). -/
def connClient : MCPClient :=
  { server := demoServer "stdio://x", connected := true }

/-- A concrete server record sitting in `error` status with a stale
connection count. -/
def errSrv : MCPServer :=
  { demoServer "stdio://foo" with status := "error", activeConnections := 2 }

/-- An application state holding the single `error`-status server. -/
def errState : AppState :=
  { servers := [errSrv], connections := [], mcpConnections := [],
    selectedIndex := 0, view := "list", error := "", isLoading := false,
    refreshRate := 5, autoRefresh := true, initialServerURL := "" }

/-- An application state holding one stopped server (and an empty
connection map). -/
def stoppedState : AppState :=
  { errState with servers := [demoServer "stdio://foo"] }

/-- Concrete `call_tool` parameters naming a tool the example server
does not provide. -/
def unknownToolParams : List (String × JVal) := [("name", JVal.str "bogus")]

/-- Strengthened inductive invariant: the connection map is empty and
no server is in `running` status. -/
def NoLive (st : AppState) : Prop :=
  st.mcpConnections = [] ∧ ∀ s ∈ st.servers, ¬ s.status = "running"

/-- The state `stoppedState` after its one toggle fails to connect:
the lone server has moved to `error`. -/
def stoppedStateAfter : AppState :=
  { stoppedState with
    servers := [{ demoServer "stdio://foo" with status := "error" }] }

/-- The frame property of C10 for `ToggleServer` at index `i`: the
server list keeps its length, every other index keeps its record, the
`i`-th record keeps its `ID`, `Name`, `URL`, `ResponseTime`,
`Description` and `Tools` fields, every connection-map key other than
the `i`-th server's ID keeps its binding, every other field of the
application state is unchanged, and an out-of-range index changes
nothing at all. -/
def ToggleFrame (st st' : AppState) (i : Nat) : Prop :=
  st'.servers.length = st.servers.length ∧
  (∀ j, j ≠ i → st'.servers[j]? = st.servers[j]?) ∧
  (∀ srv srv', st.servers[i]? = some srv → st'.servers[i]? = some srv' →
    srv'.id = srv.id ∧ srv'.name = srv.name ∧ srv'.url = srv.url ∧
    srv'.responseTime = srv.responseTime ∧
    srv'.description = srv.description ∧ srv'.tools = srv.tools) ∧
  (∀ srv, st.servers[i]? = some srv → ∀ k, k ≠ srv.id →
    mapGet k st'.mcpConnections = mapGet k st.mcpConnections) ∧
  st'.connections = st.connections ∧
  st'.selectedIndex = st.selectedIndex ∧
  st'.view = st.view ∧
  st'.error = st.error ∧
  st'.isLoading = st.isLoading ∧
  st'.refreshRate = st.refreshRate ∧
  st'.autoRefresh = st.autoRefresh ∧
  st'.initialServerURL = st.initialServerURL ∧
  (st.servers.length ≤ i → st' = st)

/-! ## Claim theorems -/

/-- C1: for the well-formed descriptor URL `stdio://echo hi` — whose
command parses to a launchable executable and whose spawn the oracle
lets succeed — `Connect` does not succeed: the byte-slice comparison
`URL[:7] == "stdio://"` compares a 7-byte slice against an 8-byte
literal, so the stdio branch is unreachable and the call returns the
`unsupported protocol` failure the claim rules out. -/
theorem connect_stdio_unsupported_protocol :
    connect (NewMCPClient (demoServer "stdio://echo hi")) allOk =
      .err "unsupported protocol: stdio:/" ∧
    parseCommand "echo hi" = ["echo", "hi"] := by
  decide

/-- C2: on a connected client, `Call` of `get_server_info` (request id
`42`, write succeeding) returns immediately the placeholder response
carrying only the request id — `result` is empty no matter what the
server sends back, instead of the `{name: X}` result the claim
requires. -/
theorem call_returns_placeholder :
    call connClient "get_server_info" none "42" true =
      .ok { id := "42", result := none, error := none } := rfl

/-- C3: toggling the server that sits in `error` status does not start
it: the only effect is zeroing `ActiveConnections`, and the status
stays `error` (neither branch of `ToggleServer` matches an `error`
status, so no fresh `Connect` attempt is made). -/
theorem toggleServer_error_status_stuck :
    toggleServer errState 0 9 allOk =
      some { errState with servers := [{ errSrv with activeConnections := 0 }] } ∧
    ({ errSrv with activeConnections := 0 } : MCPServer).status = "error" := by
  decide

/-- C5: `Connect` never consults the `connected` flag — its result on
a client whose previous `Connect` has been (hypothetically) recorded
as `connected = true` is identical to its result on a fresh client,
and on a concrete already-connected client it returns the
`unsupported protocol` error, not an `already connected` failure. -/
theorem connect_ignores_connected_flag :
    (∀ (s : MCPServer) (b : Bool) (o : SpawnOracle),
      connect { server := s, connected := b } o =
        connect { server := s, connected := false } o) ∧
    connect { server := demoServer "stdio://cat", connected := true } allOk =
      .err "unsupported protocol: stdio:/" :=
  ⟨fun _ _ _ => rfl, by decide⟩

/-- C6: on the non-empty six-byte URL `x:1234`, `Connect` panics
taking the `URL[:7]` slice instead of returning an error value. -/
theorem connect_short_url_panics :
    connect (NewMCPClient (demoServer "x:1234")) allOk =
      .panic "runtime error: slice bounds out of range" := by
  decide

/-- C8: disconnecting a server whose status is `stopped` is a no-op:
for every in-range index whose server is `stopped`, `DisconnectServer`
returns the application state unchanged in every field. -/
theorem disconnectServer_stopped_noop (st : AppState) (i : Nat)
    (h : i < st.servers.length)
    (hs : st.servers[i].status = "stopped") :
    disconnectServer st i = st := by
  unfold disconnectServer
  rw [dif_pos h, if_neg (by simp [hs])]


/-- Witness for C8 at a concrete stopped server. -/
theorem disconnectServer_stopped_noop_instance :
    0 < stoppedState.servers.length ∧
    disconnectServer stoppedState 0 = stoppedState :=
  ⟨by decide, disconnectServer_stopped_noop stoppedState 0 (by decide) (by decide)⟩

/-- C9: for every request id and every tool name outside the example
server's tool set, `handleCallTool` returns the error response with
the request's id, error code `-32000`, and message exactly
`unknown tool: <name>`. -/
theorem handleCallTool_unknown_tool (id toolName : String)
    (params : List (String × JVal))
    (hname : jGetString params "name" = some toolName)
    (h1 : toolName ≠ "qwen_chat_complete")
    (h2 : toolName ≠ "qwen_text_embedding") :
    handleCallTool id params =
      .obj [("id", .str id),
            ("error", .obj [("code", .num (-32000)),
                            ("message", .str ("unknown tool: " ++ toolName))])] := by
  unfold handleCallTool
  rw [hname]
  simp only [if_neg h1, if_neg h2]
  rfl


/-- One splitting step only ever appends to the token list: the step
from an accumulator with tokens `ts` is the step from the empty token
list with `ts` glued on the front. -/
theorem specQuoteStep_toks (isSep : Char → Bool) (ts : List String)
    (cur : String) (q : Option Char) (c : Char) :
    specQuoteStep isSep ⟨ts, cur, q⟩ c =
      { specQuoteStep isSep ⟨[], cur, q⟩ c with
        toks := ts ++ (specQuoteStep isSep ⟨[], cur, q⟩ c).toks } := by
  rcases q with _ | q <;>
    · unfold specQuoteStep
      dsimp only
      split_ifs <;> simp

/-- Folding the splitter from an accumulator with tokens `ts` produces
the fold from the empty token list, with `ts` glued on the front of
the finished tokens. -/
theorem splitFinish_foldl_append (isSep : Char → Bool) :
    ∀ (cs : List Char) (ts : List String) (cur : String) (q : Option Char),
      splitFinish (List.foldl (specQuoteStep isSep) ⟨ts, cur, q⟩ cs) =
        ts ++ splitFinish (List.foldl (specQuoteStep isSep) ⟨[], cur, q⟩ cs) := by
  intro cs
  induction cs with
  | nil => intro ts cur q; simp [splitFinish]
  | cons c cs ih =>
    intro ts cur q
    rw [List.foldl_cons, List.foldl_cons, specQuoteStep_toks]
    rcases hstep : specQuoteStep isSep ⟨[], cur, q⟩ c with ⟨ts1, cur1, q1⟩
    dsimp only
    rw [ih (ts ++ ts1) cur1 q1, ih ts1 cur1 q1, List.append_assoc]

/-- Bridge between the Go loop and the specification-side fold: the
loop state `(cur, inQ, qc)` corresponds to the accumulator whose
pending quote is `some qc` exactly when `inQ` is set. -/
theorem parseAux_spec :
    ∀ (cs : List Char) (cur : String) (inQ : Bool) (qc : Char),
      parseCommandAux cs cur inQ qc =
        splitFinish (List.foldl (specQuoteStep isSpaceSep)
          ⟨[], cur, if inQ then some qc else none⟩ cs) := by
  intro cs
  induction cs with
  | nil =>
    intro cur inQ qc
    cases inQ <;> simp [parseCommandAux, splitFinish]
  | cons c cs ih =>
    intro cur inQ qc
    rw [List.foldl_cons]
    cases inQ
    · by_cases hq : c = squote ∨ c = dquote
      · have hl : parseCommandAux (c :: cs) cur false qc =
            parseCommandAux cs cur true c := by
          simp [parseCommandAux, hq]
        have hr : specQuoteStep isSpaceSep ⟨[], cur, none⟩ c =
            ⟨[], cur, some c⟩ := by
          simp [specQuoteStep, hq]
        rw [hl, ih cur true c]
        simp [hr]
      · by_cases hsp : c = ' '
        · subst hsp
          have hq2 : ¬(' ' = squote ∨ ' ' = dquote) := by decide
          have hsep : isSpaceSep ' ' = true := by decide
          have hr : specQuoteStep isSpaceSep ⟨[], cur, none⟩ ' ' =
              (if cur = "" then ⟨[], cur, none⟩
               else ⟨[cur], "", none⟩) := by
            simp [specQuoteStep, hq2, hsep]
          by_cases hcur : cur = ""
          · subst hcur
            have hl : parseCommandAux (' ' :: cs) "" false qc =
                parseCommandAux cs "" false qc := by
              simp [parseCommandAux, hq2]
            rw [hl, ih "" false qc]
            simp [hr]
          · have hl : parseCommandAux (' ' :: cs) cur false qc =
                cur :: parseCommandAux cs "" false qc := by
              simp [parseCommandAux, hq2, hcur]
            rw [hl, ih "" false qc]
            simp only [hr, if_neg hcur, Bool.false_eq_true, if_false]
            rw [splitFinish_foldl_append isSpaceSep cs [cur] "" none]
            simp
        · have hl : parseCommandAux (c :: cs) cur false qc =
              parseCommandAux cs (cur.push c) false qc := by
            simp [parseCommandAux, hq, hsp]
          have hr : specQuoteStep isSpaceSep ⟨[], cur, none⟩ c =
              ⟨[], cur.push c, none⟩ := by
            simp [specQuoteStep, hq, isSpaceSep, hsp]
          rw [hl, ih (cur.push c) false qc]
          simp [hr]
    · by_cases hqc : c = qc
      · subst hqc
        have hl : parseCommandAux (c :: cs) cur true c =
            parseCommandAux cs cur false c := by
          simp [parseCommandAux]
        have hr : specQuoteStep isSpaceSep ⟨[], cur, some c⟩ c =
            ⟨[], cur, none⟩ := by
          simp [specQuoteStep]
        rw [hl, ih cur false c]
        simp [hr]
      · have hl : parseCommandAux (c :: cs) cur true qc =
            parseCommandAux cs (cur.push c) true qc := by
          simp [parseCommandAux, hqc]
        have hr : specQuoteStep isSpaceSep ⟨[], cur, some qc⟩ c =
            ⟨[], cur.push c, some qc⟩ := by
          simp [specQuoteStep, hqc]
        rw [hl, ih (cur.push c) true qc]
        simp [hr]

/-- C7 counterexample: on the command `a<TAB>b`, quote-aware splitting
on whitespace (the claim's words) yields the two tokens `a` and `b`,
but `parseCommand` — which only ever splits on the space character —
keeps the tab inside a single token, so the claim as stated fails. -/
theorem parseCommand_tab_not_whitespace_split :
    parseCommand "a\tb" = ["a\tb"] ∧
    specQuoteSplit isWhitespaceSep "a\tb" = ["a", "b"] ∧
    parseCommand "a\tb" ≠ specQuoteSplit isWhitespaceSep "a\tb" := by
  refine ⟨by decide, by decide, ?_⟩
  decide

/-- C7 amended: for every command string, `parseCommand` agrees with
quote-aware splitting whose separators are exactly the space
character (not all whitespace): unquoted spaces separate tokens, a
single- or double-quoted run stays within one token, and the
delimiting quote characters are consumed; in particular
`parseCommand` maps `a 'b c' d` to `a`, `b c`, `d`. -/
theorem parseCommand_space_quote_split :
    (∀ s : String, parseCommand s = specQuoteSplit isSpaceSep s) ∧
    parseCommand "a 'b c' d" = ["a", "b c", "d"] := by
  constructor
  · intro s
    unfold parseCommand specQuoteSplit
    have h := parseAux_spec s.data "" false (Char.ofNat 0)
    simpa using h
  · decide

/-- A 7-character take can never equal the 8-character literal
`stdio://` — the comparison `Connect` performs is identically false. -/
theorem take7_ne_stdio (l : List Char) : String.mk (l.take 7) ≠ "stdio://" := by
  intro h
  have h2 : l.take 7 = "stdio://".data := congrArg String.data h
  have h3 : (l.take 7).length = 8 := by rw [h2]; rfl
  have h4 : (l.take 7).length ≤ 7 := by
    rw [List.length_take]
    exact Nat.min_le_left 7 l.length
  omega

/-- `Connect` never succeeds: because its protocol test compares the
7-byte URL slice against the 8-byte literal, the stdio branch — the
only branch that returns success — is unreachable. -/
theorem connect_ne_ok (c : MCPClient) (o : SpawnOracle) (cl : MCPClient) :
    connect c o ≠ .ok cl := by
  intro h
  unfold connect at h
  rw [if_neg (take7_ne_stdio c.server.url.data)] at h
  split at h
  · cases h
  · split at h
    · cases h
    · cases h


/-- Under `NoLive`, a disconnect is the identity (no server is
running, so the `running` branch never fires). -/
theorem disconnectServer_of_noLive (st : AppState) (i : Nat)
    (hInv : NoLive st) : disconnectServer st i = st := by
  unfold disconnectServer
  by_cases hlt : i < st.servers.length
  · rw [dif_pos hlt,
      if_neg (hInv.2 (st.servers.get ⟨i, hlt⟩) (st.servers.get_mem i hlt))]
  · rw [dif_neg hlt]

/-- `ToggleServer` preserves `NoLive`: a stopped server's connect
attempt always fails (status goes to `error`, no map entry appears),
and no other branch can create a running server or a map entry. -/
theorem toggleServer_noLive (st st' : AppState) (i now : Nat) (o : SpawnOracle)
    (hInv : NoLive st) (h : toggleServer st i now o = some st') :
    NoLive st' := by
  obtain ⟨hmap, hrun⟩ := hInv
  by_cases hlt : i < st.servers.length
  · unfold toggleServer at h
    rw [dif_pos hlt] at h
    have hmem : st.servers.get ⟨i, hlt⟩ ∈ st.servers :=
      st.servers.get_mem i hlt
    have hnotrun := hrun _ hmem
    rw [if_neg hnotrun] at h
    by_cases hstop : (st.servers.get ⟨i, hlt⟩).status = "stopped"
    · rw [if_pos hstop] at h
      rcases hconn : connect (NewMCPClient (st.servers.get ⟨i, hlt⟩)) o with
        cl | msg | msg
      · exact absurd hconn (connect_ne_ok _ _ _)
      · rw [hconn] at h
        simp only [Option.some.injEq] at h
        subst h
        refine ⟨hmap, ?_⟩
        intro s hs
        rcases List.mem_or_eq_of_mem_set hs with hs' | hs'
        · exact hrun s hs'
        · subst hs'; simp
      · rw [hconn] at h
        cases h
    · rw [if_neg hstop] at h
      simp only [Option.some.injEq] at h
      subst h
      refine ⟨hmap, ?_⟩
      intro s hs
      rcases List.mem_or_eq_of_mem_set hs with hs' | hs'
      · exact hrun s hs'
      · subst hs'; simpa using hnotrun
  · unfold toggleServer at h
    rw [dif_neg hlt] at h
    simp only [Option.some.injEq] at h
    subst h
    exact ⟨hmap, hrun⟩

/-- Every operation preserves `NoLive`. -/
theorem applyOp_noLive (st st' : AppState) (op : RegOp)
    (hInv : NoLive st) (h : applyOp st op = some st') : NoLive st' := by
  cases op with
  | toggle i now o => exact toggleServer_noLive st st' i now o hInv h
  | disconnect i =>
    simp only [applyOp, Option.some.injEq] at h
    subst h
    rw [disconnectServer_of_noLive st i hInv]
    exact hInv

/-- `NoLive` is preserved by every operation sequence. -/
theorem runOps_noLive :
    ∀ (ops : List RegOp) (st st' : AppState),
      NoLive st → runOps st ops = some st' → NoLive st' := by
  intro ops
  induction ops with
  | nil =>
    intro st st' hInv h
    simp only [runOps, Option.some.injEq] at h
    subst h
    exact hInv
  | cons op ops ih =>
    intro st st' hInv h
    unfold runOps at h
    rcases hap : applyOp st op with _ | st1
    · rw [hap] at h; cases h
    · rw [hap] at h
      exact ih st1 st' (applyOp_noLive st st1 op hInv hap) h

/-- C4: starting from any state in which every server is `stopped` and
the connection map is empty, every sequence of `ToggleServer` and
`DisconnectServer` operations maintains the status/connection-map
invariant: a `running` server holds a connected client in the map
under its ID, and a `stopped` or `error` server holds no entry. -/
theorem runOps_status_conn_invariant (st0 : AppState)
    (hstop : ∀ s ∈ st0.servers, s.status = "stopped")
    (hmap : st0.mcpConnections = [])
    (ops : List RegOp) (st' : AppState)
    (hrun : runOps st0 ops = some st') :
    statusConnInvariant st' := by
  have h0 : NoLive st0 := by
    refine ⟨hmap, fun s hs => ?_⟩
    rw [hstop s hs]
    decide
  obtain ⟨hm, hr⟩ := runOps_noLive ops st0 st' h0 hrun
  intro s hs
  constructor
  · intro hrunning
    exact absurd hrunning (hr s hs)
  · intro _
    rw [hm]
    rfl


/-- Witness for C4: from the concrete all-stopped state, the sequence
of one toggle (whose connect attempt fails) reaches `stoppedStateAfter`
and the invariant holds there. -/
theorem runOps_status_conn_invariant_instance :
    (∀ s ∈ stoppedState.servers, s.status = "stopped") ∧
    stoppedState.mcpConnections = [] ∧
    runOps stoppedState [RegOp.toggle 0 3 allOk] = some stoppedStateAfter ∧
    statusConnInvariant stoppedStateAfter :=
  ⟨by decide, by decide, by decide,
    runOps_status_conn_invariant stoppedState (by decide) (by decide)
      [RegOp.toggle 0 3 allOk] stoppedStateAfter (by decide)⟩

/-- Witness for C9 at tool name `bogus` and request id `42`. -/
theorem handleCallTool_unknown_tool_instance :
    jGetString unknownToolParams "name" = some "bogus" ∧
    handleCallTool "42" unknownToolParams =
      .obj [("id", .str "42"),
            ("error", .obj [("code", .num (-32000)),
                            ("message", .str ("unknown tool: " ++ "bogus"))])] :=
  ⟨rfl, handleCallTool_unknown_tool "42" "bogus" unknownToolParams rfl
    (by decide) (by decide)⟩

/-- Looking a key up after a cons inspects the head first. -/
theorem mapGet_cons (k : String) (p : String × MCPClient)
    (m : List (String × MCPClient)) :
    mapGet k (p :: m) = if p.1 = k then some p.2 else mapGet k m := by
  by_cases hk : p.1 = k
  · rw [if_pos hk]
    unfold mapGet
    rw [List.find?_cons_of_pos m (by simpa using hk)]
    rfl
  · rw [if_neg hk]
    unfold mapGet
    rw [List.find?_cons_of_neg m (by simpa using hk)]

/-- Erasing a key filters the head exactly when it carries that key. -/
theorem mapErase_cons (id : String) (p : String × MCPClient)
    (m : List (String × MCPClient)) :
    mapErase id (p :: m) =
      if p.1 = id then mapErase id m else p :: mapErase id m := by
  by_cases hid : p.1 = id
  · rw [if_pos hid]
    unfold mapErase
    rw [List.filter_cons_of_neg (by simpa using hid)]
  · rw [if_neg hid]
    unfold mapErase
    rw [List.filter_cons_of_pos (by simpa using hid)]

/-- Erasing one key leaves every other key's binding unchanged. -/
theorem mapGet_erase_ne (k id : String) (m : List (String × MCPClient))
    (h : k ≠ id) : mapGet k (mapErase id m) = mapGet k m := by
  induction m with
  | nil => rfl
  | cons p m ih =>
    rw [mapErase_cons, mapGet_cons]
    by_cases hid : p.1 = id
    · have hk : ¬ p.1 = k := by rw [hid]; exact fun hh => h hh.symm
      rw [if_pos hid, if_neg hk]
      exact ih
    · rw [if_neg hid, mapGet_cons]
      by_cases hk : p.1 = k
      · rw [if_pos hk, if_pos hk]
      · rw [if_neg hk, if_neg hk]
        exact ih

/-- Appending a binding for a different key changes no other lookup. -/
theorem mapGet_append_single_ne (k id : String) (v : MCPClient)
    (h : k ≠ id) : ∀ (l : List (String × MCPClient)),
    mapGet k (l ++ [(id, v)]) = mapGet k l := by
  intro l
  induction l with
  | nil =>
    have hik : ¬ id = k := fun hh => h hh.symm
    simp [mapGet, List.find?, hik]
  | cons p l ih =>
    rw [List.cons_append, mapGet_cons, mapGet_cons]
    by_cases hk : p.1 = k
    · rw [if_pos hk, if_pos hk]
    · rw [if_neg hk, if_neg hk]
      exact ih

/-- Inserting under one key leaves every other key's binding
unchanged. -/
theorem mapGet_insert_ne (k id : String) (v : MCPClient)
    (m : List (String × MCPClient)) (h : k ≠ id) :
    mapGet k (mapInsert id v m) = mapGet k m := by
  rw [mapInsert, mapGet_append_single_ne k id v h, mapGet_erase_ne k id m h]

/-- C10: `ToggleServer` at index `i` touches at most the `i`-th
server's `Status`, `StartTime` and `ActiveConnections` fields and the
connection-map entry keyed by that server's ID; everything else —
the `i`-th server's identity fields, the other servers, the other
map entries, and every other field of the application state — is
unchanged, and an out-of-range index leaves the whole state as it
was. -/
theorem toggleServer_frame (st : AppState) (i now : Nat) (o : SpawnOracle)
    (st' : AppState) (h : toggleServer st i now o = some st') :
    ToggleFrame st st' i := by
  by_cases hlt : i < st.servers.length
  · have hsome : st.servers[i]? = some (st.servers.get ⟨i, hlt⟩) :=
      List.getElem?_eq_getElem hlt
    unfold toggleServer at h
    rw [dif_pos hlt] at h
    by_cases hrun : (st.servers.get ⟨i, hlt⟩).status = "running"
    · rw [if_pos hrun] at h
      simp only [Option.some.injEq] at h
      subst h
      refine ⟨by simp, ?_, ?_, ?_, rfl, rfl, rfl, rfl, rfl, rfl, rfl, rfl, ?_⟩
      · intro j hj
        exact List.getElem?_set_ne (Ne.symm hj)
      · intro srv srv' hsrv hsrv'
        rw [hsome] at hsrv
        injection hsrv with hsrv
        subst hsrv
        rw [show ∀ v, (st.servers.set i v)[i]? = some v from
          fun v => List.getElem?_set_self hlt] at hsrv'
        injection hsrv' with hsrv'
        subst hsrv'
        exact ⟨rfl, rfl, rfl, rfl, rfl, rfl⟩
      · intro srv hsrv k hk
        rw [hsome] at hsrv
        injection hsrv with hsrv
        subst hsrv
        exact mapGet_erase_ne k _ _ hk
      · intro hge
        exact absurd hlt (by omega)
    · rw [if_neg hrun] at h
      by_cases hstop : (st.servers.get ⟨i, hlt⟩).status = "stopped"
      · rw [if_pos hstop] at h
        rcases hconn : connect (NewMCPClient (st.servers.get ⟨i, hlt⟩)) o with
          cl | msg | msg
        · exact absurd hconn (connect_ne_ok _ _ _)
        · rw [hconn] at h
          simp only [Option.some.injEq] at h
          subst h
          refine ⟨by simp, ?_, ?_, ?_, rfl, rfl, rfl, rfl, rfl, rfl, rfl, rfl,
            ?_⟩
          · intro j hj
            exact List.getElem?_set_ne (Ne.symm hj)
          · intro srv srv' hsrv hsrv'
            rw [hsome] at hsrv
            injection hsrv with hsrv
            subst hsrv
            rw [show ∀ v, (st.servers.set i v)[i]? = some v from
              fun v => List.getElem?_set_self hlt] at hsrv'
            injection hsrv' with hsrv'
            subst hsrv'
            exact ⟨rfl, rfl, rfl, rfl, rfl, rfl⟩
          · intro srv hsrv k hk
            rfl
          · intro hge
            exact absurd hlt (by omega)
        · rw [hconn] at h
          cases h
      · rw [if_neg hstop] at h
        simp only [Option.some.injEq] at h
        subst h
        refine ⟨by simp, ?_, ?_, ?_, rfl, rfl, rfl, rfl, rfl, rfl, rfl, rfl,
          ?_⟩
        · intro j hj
          exact List.getElem?_set_ne (Ne.symm hj)
        · intro srv srv' hsrv hsrv'
          rw [hsome] at hsrv
          injection hsrv with hsrv
          subst hsrv
          rw [show ∀ v, (st.servers.set i v)[i]? = some v from
            fun v => List.getElem?_set_self hlt] at hsrv'
          injection hsrv' with hsrv'
          subst hsrv'
          exact ⟨rfl, rfl, rfl, rfl, rfl, rfl⟩
        · intro srv hsrv k hk
          rfl
        · intro hge
          exact absurd hlt (by omega)
  · unfold toggleServer at h
    rw [dif_neg hlt] at h
    simp only [Option.some.injEq] at h
    subst h
    refine ⟨rfl, fun j hj => rfl, ?_, fun srv hsrv k hk => rfl, rfl, rfl, rfl,
      rfl, rfl, rfl, rfl, rfl, fun hge => rfl⟩
    intro srv srv' hsrv hsrv'
    rw [hsrv] at hsrv'
    injection hsrv' with hsrv'
    subst hsrv'
    exact ⟨rfl, rfl, rfl, rfl, rfl, rfl⟩

/-- Witness for C10: toggling the concrete stopped state at index 0
(the connect attempt fails, the server moves to `error`) satisfies the
frame property. -/
theorem toggleServer_frame_instance :
    toggleServer stoppedState 0 3 allOk = some stoppedStateAfter ∧
    ToggleFrame stoppedState stoppedStateAfter 0 :=
  ⟨by decide,
    toggleServer_frame stoppedState 0 3 allOk stoppedStateAfter (by decide)⟩

end Mcop
